import Mathlib

/-!
Shallow embedding of the Casper fundraiser contract (`src/src/main.rs`).

The contract exposes four entry points: `init`, `donate`,
`get_donation_count` and `get_funds_raised`.  Global state of the host
(named keys, dictionary storage, purse balances) is modelled as explicit
association lists, and each entry point is a function from state to
`Except CallError (output × state)`.  A call that reverts produces
`Except.error`; the host applies a call's writes only when the call
succeeds (all-or-nothing per invocation), which the `step` function below
makes explicit.
-/

namespace Fundraiser

/-- Association-list lookup with decidable keys (models a key-value store). -/
def alookup {κ α : Type} [DecidableEq κ] : List (κ × α) → κ → Option α
  | [], _ => none
  | (k, v) :: rest, key => if k = key then some v else alookup rest key

/-- Association-list overwrite-or-append (models a key-value store write). -/
def aput {κ α : Type} [DecidableEq κ] : List (κ × α) → κ → α → List (κ × α)
  | [], key, v => [(key, v)]
  | (k, w) :: rest, key, v =>
      if k = key then (key, v) :: rest else (k, w) :: aput rest key v

theorem alookup_aput_self {κ α : Type} [DecidableEq κ]
    (l : List (κ × α)) (k : κ) (v : α) : alookup (aput l k v) k = some v := by
  induction l with
  | nil => simp [aput, alookup]
  | cons hd tl ih =>
    obtain ⟨k', w⟩ := hd
    by_cases hk : k' = k
    · subst hk; simp [aput, alookup]
    · simp [aput, alookup, hk, ih]

theorem alookup_aput_ne {κ α : Type} [DecidableEq κ]
    (l : List (κ × α)) (k k' : κ) (v : α) (hne : k' ≠ k) :
    alookup (aput l k v) k' = alookup l k' := by
  induction l with
  | nil => simp [aput, alookup, Ne.symm hne]
  | cons hd tl ih =>
    obtain ⟨k₀, w⟩ := hd
    by_cases hk : k₀ = k
    · subst hk
      simp [aput, alookup, Ne.symm hne]
    · simp [aput, alookup, hk, ih]

/-- Access rights carried by a `URef` (READ / WRITE / ADD bits of
`casper_types::AccessRights`). -/
structure URef where
  addr : Nat
  read : Bool
  write : Bool
  add : Bool
deriving DecidableEq, Repr

/-- `URef::into_add`: same address, access rights reduced to exactly ADD. -/
def URef.into_add (u : URef) : URef :=
  { addr := u.addr, read := false, write := false, add := true }

/-- Donor account hashes are opaque uniquely-comparable values; we model the
underlying 32-byte hash by its textual form. -/
abbrev AccountHash : Type := String

/-- `AccountHash`'s `to_string` (its `Display` form, `account-hash-<hex>`). -/
def accountHashToString (h : AccountHash) : String :=
  "account-hash-" ++ h

/-- `casper_types::Key`, restricted to the variants the contract
distinguishes: `Key::Account`, `Key::URef`, and every other variant
(collapsed into `hash`, since the contract treats all non-account,
non-uref variants identically). -/
inductive KeyV where
  | account (h : AccountHash)
  | uref (u : URef)
  | hash (h : String)
deriving DecidableEq, Repr

/-- `Key::as_uref`: `Some` exactly on the `URef` variant. -/
def KeyV.as_uref : KeyV → Option URef
  | .uref u => some u
  | _ => none

/-- Errors a call can revert with: the contract's `FundRaisingError`
variants, plus the `ApiError`s raised by the library helpers
(`new_dictionary` on an existing named key, `unwrap_or_revert` on `None`,
and a host access-rights rejection). -/
inductive CallError where
  | invalidKeyVariant
  | missingLedgerSeedURef
  | missingFundRaisingPurseURef
  | invalidArgument
  | unwrapNone
  | invalidAccess
deriving DecidableEq, Repr

/-- Host-visible global state: the contract's named keys, dictionary
storage (seed address × item key → stored u64), purse balances
(address → motes), and a fresh-address counter for allocation. -/
structure GlobalState where
  namedKeys : List (String × KeyV)
  dicts : List ((Nat × String) × Nat)
  purses : List (Nat × Nat)
  fresh : Nat
deriving DecidableEq, Repr

/-- The `LEDGER` named-key constant (`"ledger"`). -/
def LEDGER : String := "ledger"

/-- The `FUNDRAISING_PURSE` named-key constant (`"fundraising_purse"`). -/
def FUNDRAISING_PURSE : String := "fundraising_purse"

/-- `runtime::get_key`. -/
def get_key (s : GlobalState) (name : String) : Option KeyV :=
  alookup s.namedKeys name

/-- `runtime::put_key` (overwrites an existing binding). -/
def put_key (s : GlobalState) (name : String) (k : KeyV) : GlobalState :=
  { s with namedKeys := aput s.namedKeys name k }

/-- `system::create_purse`: allocates a fresh zero-balance purse and returns
a full-access `URef` to it. -/
def create_purse (s : GlobalState) : URef × GlobalState :=
  ({ addr := s.fresh, read := true, write := true, add := true },
   { s with purses := aput s.purses s.fresh 0, fresh := s.fresh + 1 })

/-- `storage::new_dictionary` (casper-contract): fails with
`ApiError::InvalidArgument` when the name is empty or a named key with
that name already exists; otherwise allocates a fresh seed `URef`, binds
it under the name, and returns it.  Matches the spec's `init` failure row:
"fails if Escrow/Ledger already exist and creation is re-attempted". -/
def new_dictionary (s : GlobalState) (name : String) :
    Except CallError (URef × GlobalState) :=
  if name = "" ∨ (alookup s.namedKeys name).isSome then
    .error .invalidArgument
  else
    let seed : URef := { addr := s.fresh, read := true, write := true, add := true }
    .ok (seed, { s with namedKeys := aput s.namedKeys name (.uref seed),
                        fresh := s.fresh + 1 })

/-- `storage::dictionary_get` (deserialization is not modelled; absent
entries are `none`). -/
def dictionary_get (s : GlobalState) (seed_uref : URef)
    (dictionary_item_key : String) : Option Nat :=
  alookup s.dicts (seed_uref.addr, dictionary_item_key)

/-- `storage::dictionary_put`. -/
def dictionary_put (s : GlobalState) (seed_uref : URef)
    (dictionary_item_key : String) (value : Nat) : GlobalState :=
  { s with dicts := aput s.dicts (seed_uref.addr, dictionary_item_key) value }

/-- `system::get_purse_balance`: the host rejects the query unless the
`URef` carries READ access; `none` also covers a missing purse. -/
def get_purse_balance (s : GlobalState) (purse : URef) : Option Nat :=
  if purse.read then alookup s.purses purse.addr else none

/-- Modelled from the spec: a deposit through a purse capability "permits
increasing its balance by any depositor holding the token"; the host
requires ADD access on the `URef` used for the transfer into the purse. -/
def purse_deposit (s : GlobalState) (u : URef) (amount : Nat) :
    Except CallError GlobalState :=
  if u.add then
    match alookup s.purses u.addr with
    | some b => .ok { s with purses := aput s.purses u.addr (b + amount) }
    | none => .error .unwrapNone
  else .error .invalidAccess

/-- Modelled from the spec: decreasing a purse's balance ("withdrawal")
requires WRITE access on the `URef`; a deposit-only token "forbids ...
decreasing the balance through that token". -/
def purse_withdraw (s : GlobalState) (u : URef) (amount : Nat) :
    Except CallError GlobalState :=
  if u.write then
    match alookup s.purses u.addr with
    | some b => if amount ≤ b then
        .ok { s with purses := aput s.purses u.addr (b - amount) }
      else .error .unwrapNone
    | none => .error .unwrapNone
  else .error .invalidAccess

/-- Observable events emitted while a call executes, used to state ordering
properties: a write of a ledger dictionary entry, and the value returned
to the caller via `runtime::ret`. -/
inductive Event where
  | ledgerWrite (dictionary_item_key : String) (value : Nat)
  | ret (u : URef)
deriving DecidableEq, Repr

/-- Modelled from the spec: `update_ledger_record` is called by `donate`
(src line 53) but its definition is not part of the sources; the spec's
Counter Ledger `increment(ledger_ref, key)` "reads current count via
`get`" (absent key counts as 0) and "stores `current + 1`".  The ledger
seed `URef` is retrieved from the `LEDGER` named key exactly as
`get_donation_count` does (src lines 73-76), reverting with
`MissingLedgerSeedURef` when it is absent.  The returned list records the
ledger-write event for ordering statements. -/
def update_ledger_record (s : GlobalState) (dictionary_item_key : String) :
    List Event × Except CallError GlobalState :=
  match get_key s LEDGER with
  | none => ([], .error .missingLedgerSeedURef)
  | some k =>
    match k.as_uref with
    | none => ([], .error .unwrapNone)
    | some ledger_seed_uref =>
      let current := (dictionary_get s ledger_seed_uref dictionary_item_key).getD 0
      ([.ledgerWrite dictionary_item_key (current + 1)],
       .ok (dictionary_put s ledger_seed_uref dictionary_item_key (current + 1)))

/-- `init` (src lines 40-45): create the fundraising purse, bind it under
`FUNDRAISING_PURSE`, then create the ledger dictionary
(`new_dictionary(LEDGER).unwrap_or_revert()`). -/
def init (s : GlobalState) : Except CallError (Unit × GlobalState) :=
  let (fundraising_purse, s₁) := create_purse s
  let s₂ := put_key s₁ FUNDRAISING_PURSE (.uref fundraising_purse)
  match new_dictionary s₂ LEDGER with
  | .error e => .error e
  | .ok (_, s₃) => .ok ((), s₃)

/-- `donate` (src lines 50-66) together with its event trace: validate the
key variant (else revert `InvalidKeyVariant`), update the ledger record
for the account hash's string form, fetch the `FUNDRAISING_PURSE` named
key (else revert `MissingFundRaisingPurseURef`; non-`URef` binding
reverts via `unwrap_or_revert`), and return the purse `URef` restricted to
add-only access. -/
def donateRun (s : GlobalState) (donating_account_key : KeyV) :
    List Event × Except CallError (URef × GlobalState) :=
  match donating_account_key with
  | .account donating_account_hash =>
    match update_ledger_record s (accountHashToString donating_account_hash) with
    | (tr, .error e) => (tr, .error e)
    | (tr, .ok s₁) =>
      match get_key s₁ FUNDRAISING_PURSE with
      | none => (tr, .error .missingFundRaisingPurseURef)
      | some k =>
        match k.as_uref with
        | none => (tr, .error .unwrapNone)
        | some donation_purse =>
          let value := donation_purse.into_add
          (tr ++ [.ret value], .ok (value, s₁))
  | _ => ([], .error .invalidKeyVariant)

/-- The result of `donate`, with the event trace dropped. -/
def donate (s : GlobalState) (donating_account_key : KeyV) :
    Except CallError (URef × GlobalState) :=
  (donateRun s donating_account_key).2

/-- `get_donation_count` (src lines 70-89): validate the key variant, fetch
the ledger seed from the `LEDGER` named key (else revert
`MissingLedgerSeedURef`), read the dictionary entry for the account
hash's string form (absent entry counts as `0`), and return the count.
Read-only: the state is returned unchanged. -/
def get_donation_count (s : GlobalState) (donating_account_key : KeyV) :
    Except CallError (Nat × GlobalState) :=
  match donating_account_key with
  | .account donating_account_hash =>
    match get_key s LEDGER with
    | none => .error .missingLedgerSeedURef
    | some k =>
      match k.as_uref with
      | none => .error .unwrapNone
      | some ledger_seed_uref =>
        let donation_count :=
          (dictionary_get s ledger_seed_uref
            (accountHashToString donating_account_hash)).getD 0
        .ok (donation_count, s)
  | _ => .error .invalidKeyVariant

/-- `get_funds_raised` (src lines 93-101): fetch the purse from the
`FUNDRAISING_PURSE` named key (else revert
`MissingFundRaisingPurseURef`), query its balance, and return it.
Read-only: the state is returned unchanged. -/
def get_funds_raised (s : GlobalState) : Except CallError (Nat × GlobalState) :=
  match get_key s FUNDRAISING_PURSE with
  | none => .error .missingFundRaisingPurseURef
  | some k =>
    match k.as_uref with
    | none => .error .unwrapNone
    | some donation_purse =>
      match get_purse_balance s donation_purse with
      | none => .error .unwrapNone
      | some funds_raised => .ok (funds_raised, s)

/-- `Except.isOk` as a plain boolean on our call results. -/
def isOk {ε α : Type} : Except ε α → Bool
  | .ok _ => true
  | .error _ => false

/-- The four externally invocable operations. -/
inductive Op where
  | init
  | donate (k : KeyV)
  | getCount (k : KeyV)
  | getFunds
deriving DecidableEq, Repr

/-- Modelled from the spec: the host applies an invocation's writes
all-or-nothing ("operations either fully complete or abort with no
partial ledger/escrow mutation visible", §5), so the committed state after
a call is the call's final state on success and the original state on
revert. -/
def step (s : GlobalState) : Op → GlobalState
  | .init =>
    match init s with
    | .ok (_, s') => s'
    | .error _ => s
  | .donate k =>
    match donate s k with
    | .ok (_, s') => s'
    | .error _ => s
  | .getCount k =>
    match get_donation_count s k with
    | .ok (_, s') => s'
    | .error _ => s
  | .getFunds =>
    match get_funds_raised s with
    | .ok (_, s') => s'
    | .error _ => s

/-- Whether an operation reverts when invoked on a given state. -/
def aborts (s : GlobalState) : Op → Bool
  | .init => !isOk (init s)
  | .donate k => !isOk (donate s k)
  | .getCount k => !isOk (get_donation_count s k)
  | .getFunds => !isOk (get_funds_raised s)

/-- Committed state after a sequence of operations. -/
def run (s : GlobalState) : List Op → GlobalState
  | [] => s
  | op :: rest => run (step s op) rest

/-- Number of `donate i` operations in a sequence that succeed at the state
where they execute. -/
def countDonates (s : GlobalState) (i : KeyV) : List Op → Nat
  | [] => 0
  | .donate k :: rest =>
      (if k = i ∧ isOk (donate s k) = true then 1 else 0) +
        countDonates (step s (.donate k)) i rest
  | op :: rest => countDonates (step s op) i rest

/-- The per-identity donation count an initialized state records: the
ledger dictionary entry for the identity's serialized account hash
(absent ledger or absent entry counts as 0). -/
def ledgerCountOf (s : GlobalState) (h : AccountHash) : Nat :=
  match get_key s LEDGER with
  | some (.uref ledger_seed_uref) =>
      (dictionary_get s ledger_seed_uref (accountHashToString h)).getD 0
  | _ => 0

/-- The empty pre-deployment state. -/
def initialState : GlobalState :=
  { namedKeys := [], dicts := [], purses := [], fresh := 0 }

/-- The state right after the one successful `init` call made at
deployment time. -/
def initializedState : GlobalState := step initialState .init

/-- A state whose `LEDGER` named key is bound to a dictionary seed `URef`
(the situation every state reachable after a successful `init` is in). -/
def hasLedger (s : GlobalState) : Prop :=
  ∃ L : URef, get_key s LEDGER = some (KeyV.uref L)

theorem accountHashToString_inj (a b : AccountHash)
    (h : accountHashToString a = accountHashToString b) : a = b := by
  have hd := congrArg String.data h
  simp only [accountHashToString, String.data_append] at hd
  exact String.ext (List.append_cancel_left hd)

theorem ledger_ne_purse : LEDGER ≠ FUNDRAISING_PURSE := by decide

theorem get_key_dictionary_put (s : GlobalState) (u : URef) (key : String)
    (v : Nat) (name : String) :
    get_key (dictionary_put s u key v) name = get_key s name := rfl

theorem ledgerCountOf_eq (s : GlobalState) (a : AccountHash) (L : URef)
    (hL : get_key s LEDGER = some (KeyV.uref L)) :
    ledgerCountOf s a = (dictionary_get s L (accountHashToString a)).getD 0 := by
  simp only [ledgerCountOf, hL]

theorem KeyV.as_uref_uref (u : URef) : (KeyV.uref u).as_uref = some u := rfl

theorem donateRun_not_account (s : GlobalState) (k : KeyV)
    (hk : ∀ a : AccountHash, k ≠ KeyV.account a) :
    donateRun s k = ([], .error .invalidKeyVariant) := by
  cases k with
  | account a => exact absurd rfl (hk a)
  | uref u => rfl
  | hash h => rfl

theorem donateRun_no_ledger (s : GlobalState) (a : AccountHash)
    (hL : get_key s LEDGER = none) :
    donateRun s (.account a) = ([], .error .missingLedgerSeedURef) := by
  simp only [donateRun, update_ledger_record, hL]

theorem donateRun_ledger_not_uref (s : GlobalState) (a : AccountHash) (k₀ : KeyV)
    (hL : get_key s LEDGER = some k₀) (hk₀ : k₀.as_uref = none) :
    donateRun s (.account a) = ([], .error .unwrapNone) := by
  simp only [donateRun, update_ledger_record, hL, hk₀]

theorem donateRun_no_purse (s : GlobalState) (a : AccountHash) (L : URef)
    (hL : get_key s LEDGER = some (KeyV.uref L))
    (hP : get_key s FUNDRAISING_PURSE = none) :
    donateRun s (.account a) =
      ([.ledgerWrite (accountHashToString a)
          ((dictionary_get s L (accountHashToString a)).getD 0 + 1)],
       .error .missingFundRaisingPurseURef) := by
  simp only [donateRun, update_ledger_record, hL, KeyV.as_uref_uref,
    get_key_dictionary_put, hP]

theorem donateRun_purse_not_uref (s : GlobalState) (a : AccountHash) (L : URef)
    (k₁ : KeyV) (hL : get_key s LEDGER = some (KeyV.uref L))
    (hP : get_key s FUNDRAISING_PURSE = some k₁) (hk₁ : k₁.as_uref = none) :
    donateRun s (.account a) =
      ([.ledgerWrite (accountHashToString a)
          ((dictionary_get s L (accountHashToString a)).getD 0 + 1)],
       .error .unwrapNone) := by
  simp only [donateRun, update_ledger_record, hL, KeyV.as_uref_uref,
    get_key_dictionary_put, hP, hk₁]

theorem donateRun_ok (s : GlobalState) (a : AccountHash) (L p : URef)
    (hL : get_key s LEDGER = some (KeyV.uref L))
    (hP : get_key s FUNDRAISING_PURSE = some (KeyV.uref p)) :
    donateRun s (.account a) =
      ([.ledgerWrite (accountHashToString a)
          ((dictionary_get s L (accountHashToString a)).getD 0 + 1),
        .ret p.into_add],
       .ok (p.into_add,
        dictionary_put s L (accountHashToString a)
          ((dictionary_get s L (accountHashToString a)).getD 0 + 1))) := by
  simp only [donateRun, update_ledger_record, hL, KeyV.as_uref_uref,
    get_key_dictionary_put, hP]
  rfl

theorem run_cons (s : GlobalState) (op : Op) (rest : List Op) :
    run s (op :: rest) = run (step s op) rest := rfl

theorem countDonates_init (s : GlobalState) (i : KeyV) (rest : List Op) :
    countDonates s i (.init :: rest) = countDonates (step s .init) i rest := rfl

theorem countDonates_getCount (s : GlobalState) (i k : KeyV) (rest : List Op) :
    countDonates s i (.getCount k :: rest) =
      countDonates (step s (.getCount k)) i rest := rfl

theorem countDonates_getFunds (s : GlobalState) (i : KeyV) (rest : List Op) :
    countDonates s i (.getFunds :: rest) =
      countDonates (step s .getFunds) i rest := rfl

theorem countDonates_donate (s : GlobalState) (i k : KeyV) (rest : List Op) :
    countDonates s i (.donate k :: rest) =
      (if k = i ∧ isOk (donate s k) = true then 1 else 0) +
        countDonates (step s (.donate k)) i rest := rfl

theorem step_getCount (s : GlobalState) (k : KeyV) : step s (.getCount k) = s := by
  unfold step
  cases k with
  | account a =>
    cases hL : get_key s LEDGER with
    | none => simp [get_donation_count, hL]
    | some k₀ => cases k₀ <;> simp [get_donation_count, hL, KeyV.as_uref]
  | uref u => simp [get_donation_count]
  | hash h => simp [get_donation_count]

theorem step_getFunds (s : GlobalState) : step s .getFunds = s := by
  unfold step
  cases hP : get_key s FUNDRAISING_PURSE with
  | none => simp [get_funds_raised, hP]
  | some k₀ =>
    cases k₀ with
    | uref p =>
      cases hB : get_purse_balance s p with
      | none => simp [get_funds_raised, hP, KeyV.as_uref, hB]
      | some b => simp [get_funds_raised, hP, KeyV.as_uref, hB]
    | account a => simp [get_funds_raised, hP, KeyV.as_uref]
    | hash h => simp [get_funds_raised, hP, KeyV.as_uref]

theorem init_of_ledger_present (s : GlobalState)
    (hl : (get_key s LEDGER).isSome = true) :
    init s = .error .invalidArgument := by
  simp only [get_key] at hl
  simp only [init, create_purse, put_key, new_dictionary,
    alookup_aput_ne _ _ _ _ ledger_ne_purse, hl, or_true, if_true]

theorem step_init_of_ledger_present (s : GlobalState)
    (hl : (get_key s LEDGER).isSome = true) : step s .init = s := by
  simp [step, init_of_ledger_present s hl]

theorem donate_error_step (s : GlobalState) (k : KeyV) (e : CallError)
    (h : donate s k = .error e) : step s (.donate k) = s := by
  simp [step, h]

theorem donate_ok_step (s : GlobalState) (k : KeyV) (u : URef) (s' : GlobalState)
    (h : donate s k = .ok (u, s')) : step s (.donate k) = s' := by
  simp [step, h]

theorem donate_ok_inv (s : GlobalState) (k : KeyV) (u : URef) (s' : GlobalState)
    (hdon : donate s k = .ok (u, s')) :
    ∃ (a : AccountHash) (L p : URef),
      k = KeyV.account a ∧
      get_key s LEDGER = some (KeyV.uref L) ∧
      get_key s FUNDRAISING_PURSE = some (KeyV.uref p) ∧
      u = p.into_add ∧
      s' = dictionary_put s L (accountHashToString a)
            ((dictionary_get s L (accountHashToString a)).getD 0 + 1) := by
  cases k with
  | uref u₀ => simp [donate, donateRun] at hdon
  | hash h₀ => simp [donate, donateRun] at hdon
  | account a =>
    cases hL : get_key s LEDGER with
    | none =>
      simp only [donate] at hdon
      rw [donateRun_no_ledger s a hL] at hdon
      simp at hdon
    | some k₀ =>
      cases k₀ with
      | account b =>
        simp only [donate] at hdon
        rw [donateRun_ledger_not_uref s a _ hL rfl] at hdon
        simp at hdon
      | hash hh =>
        simp only [donate] at hdon
        rw [donateRun_ledger_not_uref s a _ hL rfl] at hdon
        simp at hdon
      | uref L =>
        cases hP : get_key s FUNDRAISING_PURSE with
        | none =>
          simp only [donate] at hdon
          rw [donateRun_no_purse s a L hL hP] at hdon
          simp at hdon
        | some k₁ =>
          cases k₁ with
          | account c =>
            simp only [donate] at hdon
            rw [donateRun_purse_not_uref s a L _ hL hP rfl] at hdon
            simp at hdon
          | hash hh =>
            simp only [donate] at hdon
            rw [donateRun_purse_not_uref s a L _ hL hP rfl] at hdon
            simp at hdon
          | uref p =>
            simp only [donate] at hdon
            rw [donateRun_ok s a L p hL hP] at hdon
            simp only [Except.ok.injEq, Prod.mk.injEq] at hdon
            obtain ⟨h1, h2⟩ := hdon
            exact ⟨a, L, p, rfl, rfl, rfl, h1.symm, h2.symm⟩

theorem hasLedger_step (s : GlobalState) (op : Op) (h : hasLedger s) :
    hasLedger (step s op) := by
  obtain ⟨L, hL⟩ := h
  cases op with
  | init =>
    rw [step_init_of_ledger_present s (by rw [hL]; rfl)]
    exact ⟨L, hL⟩
  | getCount k => rw [step_getCount]; exact ⟨L, hL⟩
  | getFunds => rw [step_getFunds]; exact ⟨L, hL⟩
  | donate k =>
    cases hD : donate s k with
    | error e => rw [donate_error_step s k e hD]; exact ⟨L, hL⟩
    | ok pr =>
      obtain ⟨u, s'⟩ := pr
      obtain ⟨a, L', p', hk, hL', hP', hu, hs'⟩ := donate_ok_inv s k u s' hD
      rw [donate_ok_step s k u s' hD, hs']
      exact ⟨L', by rw [get_key_dictionary_put]; exact hL'⟩

theorem hasLedger_run (ops : List Op) :
    ∀ s : GlobalState, hasLedger s → hasLedger (run s ops) := by
  induction ops with
  | nil => intro s h; exact h
  | cons op rest ih =>
    intro s h
    rw [run_cons]
    exact ih _ (hasLedger_step s op h)

theorem get_donation_count_of_ledger (s : GlobalState) (a : AccountHash)
    (L : URef) (hL : get_key s LEDGER = some (KeyV.uref L)) :
    get_donation_count s (.account a) = .ok (ledgerCountOf s a, s) := by
  simp only [get_donation_count, hL, KeyV.as_uref_uref]
  rw [ledgerCountOf_eq s a L hL]

theorem ledgerCountOf_run (ops : List Op) :
    ∀ (s : GlobalState) (a : AccountHash), hasLedger s →
      ledgerCountOf (run s ops) a =
        ledgerCountOf s a + countDonates s (.account a) ops := by
  induction ops with
  | nil => intro s a _; simp [run, countDonates]
  | cons op rest ih =>
    intro s a hInv
    obtain ⟨L, hL⟩ := hInv
    cases op with
    | init =>
      rw [run_cons, countDonates_init, step_init_of_ledger_present s (by rw [hL]; rfl)]
      exact ih s a ⟨L, hL⟩
    | getCount k =>
      rw [run_cons, countDonates_getCount, step_getCount]
      exact ih s a ⟨L, hL⟩
    | getFunds =>
      rw [run_cons, countDonates_getFunds, step_getFunds]
      exact ih s a ⟨L, hL⟩
    | donate k =>
      rw [run_cons, countDonates_donate]
      cases hD : donate s k with
      | error e =>
        rw [donate_error_step s k e hD]
        have hcond : ¬(k = KeyV.account a ∧
            isOk (Except.error (α := URef × GlobalState) e) = true) := by
          rintro ⟨-, hok⟩
          exact absurd hok (by simp [isOk])
        rw [if_neg hcond, ih s a ⟨L, hL⟩]
        omega
      | ok pr =>
        obtain ⟨u, s'⟩ := pr
        obtain ⟨b, L', p', hk, hL', hP', hu, hs'⟩ := donate_ok_inv s k u s' hD
        subst hk
        have hokk : isOk (Except.ok (ε := CallError) (u, s')) = true := rfl
        rw [donate_ok_step s _ u s' hD]
        have hInv' : hasLedger s' :=
          ⟨L', by rw [hs', get_key_dictionary_put]; exact hL'⟩
        by_cases hba : b = a
        · subst hba
          rw [if_pos ⟨rfl, hokk⟩, ih s' b hInv']
          have hcnt : ledgerCountOf s' b = ledgerCountOf s b + 1 := by
            rw [hs',
              ledgerCountOf_eq _ _ L' (by rw [get_key_dictionary_put]; exact hL'),
              ledgerCountOf_eq s b L' hL']
            simp only [dictionary_get, dictionary_put]
            rw [alookup_aput_self]
            rfl
          rw [hcnt]
          omega
        · have hcond : ¬(KeyV.account b = KeyV.account a ∧
              isOk (Except.ok (ε := CallError) (u, s')) = true) := by
            rintro ⟨h1, -⟩
            exact hba (by injection h1)
          rw [if_neg hcond, ih s' a hInv']
          have hcnt : ledgerCountOf s' a = ledgerCountOf s a := by
            rw [hs',
              ledgerCountOf_eq _ _ L' (by rw [get_key_dictionary_put]; exact hL'),
              ledgerCountOf_eq s a L' hL']
            simp only [dictionary_get, dictionary_put]
            rw [alookup_aput_ne _ _ _ _ (by
              simp only [ne_eq, Prod.mk.injEq, not_and, true_and]
              intro hstr
              exact hba ((accountHashToString_inj a b hstr).symm))]
          rw [hcnt]
          omega

theorem ledgerCountOf_step_le (s : GlobalState) (op : Op) (a : AccountHash) :
    ledgerCountOf s a ≤ ledgerCountOf (step s op) a := by
  cases op with
  | getCount k => rw [step_getCount]
  | getFunds => rw [step_getFunds]
  | init =>
    by_cases hl : (get_key s LEDGER).isSome = true
    · rw [step_init_of_ledger_present s hl]
    · have hnone : get_key s LEDGER = none := by
        cases h : get_key s LEDGER with
        | none => rfl
        | some k₀ => rw [h] at hl; simp at hl
      have h0 : ledgerCountOf s a = 0 := by simp [ledgerCountOf, hnone]
      rw [h0]
      exact Nat.zero_le _
  | donate k =>
    cases hD : donate s k with
    | error e => rw [donate_error_step s k e hD]
    | ok pr =>
      obtain ⟨u, s'⟩ := pr
      obtain ⟨b, L', p', hk, hL', hP', hu, hs'⟩ := donate_ok_inv s k u s' hD
      have hkey : get_key s' LEDGER = some (KeyV.uref L') := by
        rw [hs', get_key_dictionary_put]
        exact hL'
      rw [donate_ok_step s k u s' hD, ledgerCountOf_eq s' a L' hkey,
        ledgerCountOf_eq s a L' hL', hs']
      simp only [dictionary_get, dictionary_put]
      by_cases hab : accountHashToString a = accountHashToString b
      · rw [show ((L'.addr, accountHashToString a) : Nat × String) =
            (L'.addr, accountHashToString b) from by rw [hab]]
        rw [alookup_aput_self]
        simp
      · rw [alookup_aput_ne _ _ _ _ (by
          simp only [ne_eq, Prod.mk.injEq, not_and, true_and]
          exact fun hstr => hab hstr)]

/-- C1: for every account identity, after initialization,
`get_donation_count` returns exactly the number of `donate` calls for that
identity that succeeded so far (0 when it never donated); re-`init`
attempts and the read-only operations in the sequence do not disturb the
count. -/
theorem donation_count_equals_successful_donates (ops : List Op) (a : AccountHash) :
    get_donation_count (run initializedState ops) (.account a) =
      .ok (countDonates initializedState (.account a) ops,
        run initializedState ops) := by
  have hInv0 : get_key initializedState LEDGER =
      some (KeyV.uref { addr := 1, read := true, write := true, add := true }) := by rfl
  obtain ⟨L, hL⟩ := hasLedger_run ops initializedState ⟨_, hInv0⟩
  rw [get_donation_count_of_ledger _ a L hL,
    ledgerCountOf_run ops initializedState a ⟨_, hInv0⟩]
  have h0 : ledgerCountOf initializedState a = 0 := by
    rw [ledgerCountOf_eq _ a _ hInv0]
    rfl
  rw [h0, Nat.zero_add]

/-- C2: every successful `donate` returns the escrow purse `URef`
restricted to add-only access: a holder can deposit (increasing the
balance), but balance queries and withdrawals through it are rejected. -/
theorem donate_returns_add_only_capability (s : GlobalState) (k : KeyV)
    (u : URef) (s' : GlobalState) (hdon : donate s k = .ok (u, s')) :
    u.read = false ∧ u.write = false ∧ u.add = true ∧
    (∀ amount b : Nat, alookup s'.purses u.addr = some b →
      purse_deposit s' u amount =
        .ok { s' with purses := aput s'.purses u.addr (b + amount) }) ∧
    (∀ t : GlobalState, get_purse_balance t u = none) ∧
    (∀ (t : GlobalState) (amount : Nat),
      purse_withdraw t u amount = .error .invalidAccess) := by
  obtain ⟨a, L, p, hk, hL, hP, hu, hs'⟩ := donate_ok_inv s k u s' hdon
  subst hu
  refine ⟨rfl, rfl, rfl, ?_, ?_, ?_⟩
  · intro amount b hb
    simp only [URef.into_add] at hb
    simp [purse_deposit, URef.into_add, hb]
  · intro t
    simp [get_purse_balance, URef.into_add]
  · intro t amount
    simp [purse_withdraw, URef.into_add]

theorem donate_returns_add_only_capability_witness :
    isOk (purse_deposit (step initializedState (.donate (.account "a")))
      { addr := 0, read := false, write := false, add := true } 100) = true ∧
    get_purse_balance (step initializedState (.donate (.account "a")))
      { addr := 0, read := false, write := false, add := true } = none ∧
    purse_withdraw (step initializedState (.donate (.account "a")))
      { addr := 0, read := false, write := false, add := true } 5 =
        .error .invalidAccess := by
  have h := donate_returns_add_only_capability initializedState (.account "a")
      { addr := 0, read := false, write := false, add := true }
      (step initializedState (.donate (.account "a"))) (by rfl)
  refine ⟨?_, h.2.2.2.2.1 _, h.2.2.2.2.2 _ 5⟩
  rw [h.2.2.2.1 100 0 (by rfl)]
  rfl

/-- C3: `donate` with a key that is not of the account variant reverts with
`InvalidKeyVariant` and the committed state is unchanged, so no ledger
count of any identity is affected. -/
theorem donate_invalid_identity_no_mutation (s : GlobalState) (k : KeyV)
    (hk : ∀ a : AccountHash, k ≠ KeyV.account a) :
    donate s k = .error .invalidKeyVariant ∧ step s (.donate k) = s := by
  have hdon : donate s k = .error .invalidKeyVariant := by
    simp only [donate]
    rw [donateRun_not_account s k hk]
  exact ⟨hdon, donate_error_step s k _ hdon⟩

theorem donate_invalid_identity_no_mutation_witness :
    donate initializedState (KeyV.hash "h1") = .error .invalidKeyVariant ∧
    step initializedState (.donate (KeyV.hash "h1")) = initializedState :=
  donate_invalid_identity_no_mutation initializedState (KeyV.hash "h1")
    (fun a h => KeyV.noConfusion h)

/-- C4: invoking `init` on a state where the fundraising purse and the
ledger named keys already exist (i.e. `init` already ran) reverts
(`new_dictionary` refuses to overwrite the existing `ledger` named key)
instead of succeeding. -/
theorem init_reinvocation_fails (s : GlobalState)
    (hp : (get_key s FUNDRAISING_PURSE).isSome = true)
    (hl : (get_key s LEDGER).isSome = true) :
    init s = .error .invalidArgument :=
  init_of_ledger_present s hl

theorem init_reinvocation_fails_witness :
    (get_key initializedState FUNDRAISING_PURSE).isSome = true ∧
    (get_key initializedState LEDGER).isSome = true ∧
    init initializedState = .error .invalidArgument :=
  ⟨rfl, rfl, init_reinvocation_fails initializedState rfl rfl⟩

/-- C5: an operation that reverts leaves the committed state exactly as it
was: in particular an aborting re-`init` changes neither the escrow purse
binding nor the ledger binding (the host applies writes all-or-nothing). -/
theorem aborted_call_leaves_no_partial_mutation (s : GlobalState) (op : Op)
    (hab : aborts s op = true) : step s op = s := by
  cases op with
  | init =>
    cases h : init s with
    | ok pr =>
      exfalso
      simp only [aborts] at hab
      rw [h] at hab
      simp [isOk] at hab
    | error e => simp [step, h]
  | donate k =>
    cases h : donate s k with
    | ok pr =>
      exfalso
      simp only [aborts] at hab
      rw [h] at hab
      simp [isOk] at hab
    | error e => simp [step, h]
  | getCount k => exact step_getCount s k
  | getFunds => exact step_getFunds s

theorem aborted_call_leaves_no_partial_mutation_witness :
    aborts initializedState .init = true ∧
    step initializedState .init = initializedState :=
  ⟨rfl, aborted_call_leaves_no_partial_mutation initializedState .init rfl⟩

/-- C6 (counterexample): before `init`, `donate` with a well-formed account
key reverts with `MissingLedgerSeedURef` (the ledger lookup inside
`update_ledger_record` runs first), not with
`MissingFundRaisingPurseURef` as claimed. -/
theorem donate_before_init_error_counterexample :
    donate initialState (KeyV.account "d0") = .error .missingLedgerSeedURef ∧
    CallError.missingLedgerSeedURef ≠ CallError.missingFundRaisingPurseURef := by
  constructor
  · rfl
  · decide

/-- C6 (amended): before `init` (neither named key present), every
operation fails with a missing-resource error — `MissingLedgerSeedURef`
for `donate` and `get_donation_count`, `MissingFundRaisingPurseURef` for
`get_funds_raised`. -/
theorem pre_init_calls_fail_missing_resource (s : GlobalState) (a : AccountHash)
    (hl : get_key s LEDGER = none) (hp : get_key s FUNDRAISING_PURSE = none) :
    donate s (.account a) = .error .missingLedgerSeedURef ∧
    get_donation_count s (.account a) = .error .missingLedgerSeedURef ∧
    get_funds_raised s = .error .missingFundRaisingPurseURef := by
  refine ⟨?_, ?_, ?_⟩
  · simp only [donate]
    rw [donateRun_no_ledger s a hl]
  · simp [get_donation_count, hl]
  · simp [get_funds_raised, hp]

theorem pre_init_calls_fail_missing_resource_witness :
    donate initialState (KeyV.account "a") = .error .missingLedgerSeedURef ∧
    get_donation_count initialState (KeyV.account "a") =
      .error .missingLedgerSeedURef ∧
    get_funds_raised initialState = .error .missingFundRaisingPurseURef :=
  pre_init_calls_fail_missing_resource initialState "a" rfl rfl

/-- C7: in every successful `donate` run, the emitted event trace is
exactly the ledger write followed by the return of the capability, so the
ledger increment happens strictly before the capability is handed out. -/
theorem ledger_write_precedes_capability_return (s : GlobalState) (k : KeyV)
    (tr : List Event) (u : URef) (s' : GlobalState)
    (hrun : donateRun s k = (tr, .ok (u, s'))) :
    ∃ (key : String) (n : Nat), tr = [.ledgerWrite key n, .ret u] := by
  have hdon : donate s k = .ok (u, s') := by
    simp only [donate, hrun]
  obtain ⟨a, L, p, hk, hL, hP, hu, hs'⟩ := donate_ok_inv s k u s' hdon
  subst hk
  rw [donateRun_ok s a L p hL hP] at hrun
  simp only [Prod.mk.injEq] at hrun
  obtain ⟨htr, -⟩ := hrun
  refine ⟨accountHashToString a,
    (dictionary_get s L (accountHashToString a)).getD 0 + 1, ?_⟩
  rw [← htr, hu]

theorem ledger_write_precedes_capability_return_witness :
    ∃ (key : String) (n : Nat),
      (donateRun initializedState (KeyV.account "a")).1 =
        [.ledgerWrite key n,
         .ret { addr := 0, read := false, write := false, add := true }] :=
  ledger_write_precedes_capability_return initializedState (KeyV.account "a")
    (donateRun initializedState (KeyV.account "a")).1
    { addr := 0, read := false, write := false, add := true }
    (step initializedState (.donate (.account "a"))) (by rfl)

/-- C8: across any sequence of operations, each per-identity ledger counter
is monotonically non-decreasing: only `donate`'s increment writes an
entry (storing current + 1), entries are never deleted, and no other
operation modifies them. -/
theorem ledger_counters_monotone (s : GlobalState) (ops : List Op)
    (a : AccountHash) :
    ledgerCountOf s a ≤ ledgerCountOf (run s ops) a := by
  induction ops generalizing s with
  | nil => exact Nat.le_refl _
  | cons op rest ih =>
    rw [run_cons]
    exact Nat.le_trans (ledgerCountOf_step_le s op a) (ih (step s op))

/-- C9: in `donate` and `get_donation_count` the key-variant check runs
before any resource lookup, so a non-account key yields
`InvalidKeyVariant` on every state, including uninitialized ones where
the missing-resource errors would otherwise apply. -/
theorem invalid_key_variant_takes_precedence (s : GlobalState) (k : KeyV)
    (hk : ∀ a : AccountHash, k ≠ KeyV.account a) :
    donate s k = .error .invalidKeyVariant ∧
    get_donation_count s k = .error .invalidKeyVariant := by
  constructor
  · simp only [donate]
    rw [donateRun_not_account s k hk]
  · cases k with
    | account a => exact absurd rfl (hk a)
    | uref u => rfl
    | hash h => rfl

theorem invalid_key_variant_takes_precedence_witness :
    donate initialState
        (KeyV.uref { addr := 9, read := true, write := true, add := true }) =
      .error .invalidKeyVariant ∧
    get_donation_count initialState
        (KeyV.uref { addr := 9, read := true, write := true, add := true }) =
      .error .invalidKeyVariant :=
  invalid_key_variant_takes_precedence initialState
    (KeyV.uref { addr := 9, read := true, write := true, add := true })
    (fun a h => KeyV.noConfusion h)

/-- C10: `donate` and `get_donation_count` derive the ledger key the same
way (string form of the account hash), so reading right after a
successful `donate(i)` returns exactly the old count of `i` plus one. -/
theorem donate_and_count_share_ledger_key (s : GlobalState) (a : AccountHash)
    (u : URef) (s' : GlobalState)
    (hdon : donate s (KeyV.account a) = .ok (u, s')) :
    get_donation_count s' (KeyV.account a) =
      .ok (ledgerCountOf s a + 1, s') := by
  obtain ⟨b, L, p, hk, hL, hP, hu, hs'⟩ := donate_ok_inv s _ u s' hdon
  have hab : a = b := by injection hk
  subst hab
  have hkey : get_key s' LEDGER = some (KeyV.uref L) := by
    rw [hs', get_key_dictionary_put]
    exact hL
  rw [get_donation_count_of_ledger s' a L hkey, ledgerCountOf_eq s' a L hkey,
    ledgerCountOf_eq s a L hL, hs']
  simp only [dictionary_get, dictionary_put]
  rw [alookup_aput_self]
  rfl

theorem donate_and_count_share_ledger_key_witness :
    get_donation_count (step initializedState (.donate (.account "a")))
        (KeyV.account "a") =
      .ok (ledgerCountOf initializedState "a" + 1,
        step initializedState (.donate (.account "a"))) :=
  donate_and_count_share_ledger_key initializedState "a"
    { addr := 0, read := false, write := false, add := true }
    (step initializedState (.donate (.account "a"))) (by rfl)

end Fundraiser

